import Mathlib

/-!
Verification of the detection-and-access core of the dexscreen-snipt-bot
repository.  Each section shallowly embeds one source component:

* `RpcRateLimiter`  — the `retryWrapper` retry/backoff helper of
  `src/services/rpcRateLimiter.ts`;
* `TokenDataService` — the single-flight cached fetcher
  `fetchSplTokenDataWithCache` of `src/services/tokenDataService.ts`
  (structurally identical to `fetchRaydiumPoolsWithCache`), and
  `getTopHoldersConcentration`;
* `TokenFilters` / `TokenFiltersBoost` — the two revisions of
  `applyFilters` in `src/services/tokenFilters.ts`;
* `SolanaListenerPoll` — the polling detection loop `pollDexScreener`,
  `startTokenListener` / `stopTokenListener` and the freshness gate
  `fetchTokenCreationTime` / `isTokenYoungerThan30Mins` (part_007, first
  revision);
* `SolanaListenerPush` — the per-user body of the push-subscription
  callback (part_007, third revision).

Network calls, timers and the Telegram side are represented by oracle
parameters (outcome functions, event lists); everything between two
`await` points of the original event-loop code is one atomic step here.
-/

deriving instance DecidableEq for Except

namespace RpcRateLimiter

/-- Shape of the error value inspected by `retryWrapper`
(`src/services/rpcRateLimiter.ts`): the optional HTTP response status
(`error.response?.status`), the optional error code string (`error.code`)
and the message string (`error.message`). -/
structure RpcError where
  status : Option Nat
  code : Option String
  message : String
deriving DecidableEq

/-- Does `pat` occur as a contiguous run somewhere in `s`? -/
def listIncludes (pat : List Char) : List Char → Bool
  | [] => pat.isEmpty
  | c :: cs => pat.isPrefixOf (c :: cs) || listIncludes pat cs

/-- JavaScript `String.prototype.includes`: substring containment. -/
def strIncludes (s pat : String) : Bool :=
  listIncludes pat.toList s.toList

/-- The `is429` test of `retryWrapper` (lines 51-55): response status 429,
code `'429'`, or a message containing `'429'` or `'Too Many Requests'`. -/
def is429 (e : RpcError) : Bool :=
  e.status == some 429 || e.code == some ("429") ||
    strIncludes e.message ("429") || strIncludes e.message ("Too Many Requests")

/-- The `isRetryable` test of `retryWrapper` (lines 57-61): `is429`, or
response status 500/502/503, or code `ECONNRESET` / `ETIMEDOUT`. -/
def isRetryable (e : RpcError) : Bool :=
  is429 e ||
    (match e.status with
     | some s => [500, 502, 503].contains s
     | none => false) ||
    e.code == some ("ECONNRESET") || e.code == some ("ETIMEDOUT")

/-- Spec-side classification (spec §4.1), stated for comparison with the
code's `isRetryable`: retryable means HTTP status 429, 500, 502 or 503,
connection reset, or connection timeout — nothing else. -/
def specRetryable (e : RpcError) : Bool :=
  (match e.status with
   | some s => [429, 500, 502, 503].contains s
   | none => false) ||
    e.code == some ("ECONNRESET") || e.code == some ("ETIMEDOUT")

/-- Outcome of one call of the wrapped operation `fn`. -/
inductive FetchOutcome (α : Type) where
  | success (v : α)
  | failure (e : RpcError)
deriving DecidableEq

/-- The recursive `execute` closure of `retryWrapper` (lines 44-79).
`outcomes a` is what `fn` does on attempt number `a`, `jitter a` the value
of `Math.random() * 100` drawn on attempt `a`.  Returns the final result
(`Except` models resolve/throw) paired with the list of backoff delays
slept, in order — one delay per retry.  `fuel` is a structural recursion
bound; the code recurses only while `attempt < retries`, so the `fuel = 0`
fallback is unreachable whenever `retries - attempt ≤ fuel`. -/
def execute (outcomes : Nat → FetchOutcome α) (jitter : Nat → ℚ)
    (retries attempt fuel : Nat) : Except RpcError α × List ℚ :=
  match outcomes attempt with
  | .success v => (.ok v, [])
  | .failure e =>
    if attempt < retries ∧ isRetryable e = true then
      match fuel with
      | 0 => (.error e, [])
      | f + 1 =>
        let backoff : ℚ := 2 ^ attempt * 500 + jitter attempt
        let rest := execute outcomes jitter retries (attempt + 1) f
        (rest.1, backoff :: rest.2)
    else (.error e, [])

/-- `retryWrapper` (lines 39-81): run `execute` from attempt 0 with the
default budget of `retries = 5`. -/
def retryWrapper (outcomes : Nat → FetchOutcome α) (jitter : Nat → ℚ)
    (retries : Nat := 5) : Except RpcError α × List ℚ :=
  execute outcomes jitter retries 0 retries

/-- The backoff update of `fetchSplTokenDataWithCache`
(`src/services/tokenDataService.ts`, lines 115-131): the delay slept before
retry `k`; starts at `INITIAL_BACKOFF_MS = 500` and doubles, capped at
60000 ms. -/
def backoffSeq : Nat → ℚ
  | 0 => 500
  | k + 1 => min (backoffSeq k * 2) 60000

end RpcRateLimiter

namespace RpcRateLimiter

theorem execute_success {outcomes : Nat → FetchOutcome α} {jitter : Nat → ℚ}
    {retries attempt fuel : Nat} {v : α} (h : outcomes attempt = .success v) :
    execute outcomes jitter retries attempt fuel = (.ok v, []) := by
  conv_lhs => unfold execute
  rw [h]

theorem execute_failure_stop {outcomes : Nat → FetchOutcome α} {jitter : Nat → ℚ}
    {retries attempt fuel : Nat} {e : RpcError} (h : outcomes attempt = .failure e)
    (hg : ¬(attempt < retries ∧ isRetryable e = true)) :
    execute outcomes jitter retries attempt fuel = (.error e, []) := by
  conv_lhs => unfold execute
  rw [h]; simp only [if_neg hg]

theorem execute_failure_zero {outcomes : Nat → FetchOutcome α} {jitter : Nat → ℚ}
    {retries attempt : Nat} {e : RpcError} (h : outcomes attempt = .failure e)
    (hg : attempt < retries ∧ isRetryable e = true) :
    execute outcomes jitter retries attempt 0 = (.error e, []) := by
  conv_lhs => unfold execute
  rw [h]; simp only [if_pos hg]

theorem execute_failure_retry {outcomes : Nat → FetchOutcome α} {jitter : Nat → ℚ}
    {retries attempt fuel : Nat} {e : RpcError} (h : outcomes attempt = .failure e)
    (hg : attempt < retries ∧ isRetryable e = true) :
    execute outcomes jitter retries attempt (fuel + 1) =
      ((execute outcomes jitter retries (attempt + 1) fuel).1,
        (2 ^ attempt * 500 + jitter attempt) ::
          (execute outcomes jitter retries (attempt + 1) fuel).2) := by
  conv_lhs => unfold execute
  rw [h]; simp only [if_pos hg]

theorem execute_length_le (outcomes : Nat → FetchOutcome α) (jitter : Nat → ℚ) (retries : Nat) :
    ∀ fuel attempt, (execute outcomes jitter retries attempt fuel).2.length ≤ retries - attempt := by
  intro fuel
  induction fuel with
  | zero =>
    intro attempt
    cases h : outcomes attempt with
    | success v => rw [execute_success h]; simp
    | failure e =>
      by_cases hg : attempt < retries ∧ isRetryable e = true
      · rw [execute_failure_zero h hg]; simp
      · rw [execute_failure_stop h hg]; simp
  | succ f ih =>
    intro attempt
    cases h : outcomes attempt with
    | success v => rw [execute_success h]; simp
    | failure e =>
      by_cases hg : attempt < retries ∧ isRetryable e = true
      · rw [execute_failure_retry h hg]
        have h1 := ih (attempt + 1)
        have h2 := hg.1
        simp only [List.length_cons]
        omega
      · rw [execute_failure_stop h hg]; simp

end RpcRateLimiter

namespace RpcRateLimiter

theorem execute_getq (outcomes : Nat → FetchOutcome α) (jitter : Nat → ℚ) (retries : Nat) :
    ∀ fuel attempt k v, (execute outcomes jitter retries attempt fuel).2.get? k = some v →
      v = 2 ^ (attempt + k) * 500 + jitter (attempt + k) ∧
        (∃ e, outcomes (attempt + k) = .failure e ∧ isRetryable e = true) ∧
        attempt + k < retries := by
  intro fuel
  induction fuel with
  | zero =>
    intro attempt k v hv
    exfalso
    cases h : outcomes attempt with
    | success w => rw [execute_success h] at hv; simp at hv
    | failure e =>
      by_cases hg : attempt < retries ∧ isRetryable e = true
      · rw [execute_failure_zero h hg] at hv; simp at hv
      · rw [execute_failure_stop h hg] at hv; simp at hv
  | succ f ih =>
    intro attempt k v hv
    cases h : outcomes attempt with
    | success w => exfalso; rw [execute_success h] at hv; simp at hv
    | failure e =>
      by_cases hg : attempt < retries ∧ isRetryable e = true
      · rw [execute_failure_retry h hg] at hv
        cases k with
        | zero =>
          simp only [List.get?] at hv
          refine ⟨by simpa using hv.symm, ⟨e, by simpa using h, hg.2⟩, by simpa using hg.1⟩
        | succ k' =>
          have hv' : (execute outcomes jitter retries (attempt + 1) f).2.get? k' = some v := by
            simpa using hv
          have := ih (attempt + 1) k' v hv'
          have harith : attempt + 1 + k' = attempt + (k' + 1) := by omega
          rw [harith] at this
          exact ⟨this.1, this.2.1, this.2.2⟩
      · exfalso; rw [execute_failure_stop h hg] at hv; simp at hv

theorem execute_result (outcomes : Nat → FetchOutcome α) (jitter : Nat → ℚ) (retries : Nat) :
    ∀ fuel attempt, retries - attempt ≤ fuel →
      (∀ e, (execute outcomes jitter retries attempt fuel).1 = .error e →
        outcomes (attempt + (execute outcomes jitter retries attempt fuel).2.length) = .failure e ∧
          (isRetryable e = false ∨
            ¬ attempt + (execute outcomes jitter retries attempt fuel).2.length < retries)) ∧
      (∀ v, (execute outcomes jitter retries attempt fuel).1 = .ok v →
        outcomes (attempt + (execute outcomes jitter retries attempt fuel).2.length) =
          .success v) := by
  intro fuel
  induction fuel with
  | zero =>
    intro attempt hfuel
    cases h : outcomes attempt with
    | success v =>
      rw [execute_success h]
      exact ⟨fun e he => by simp at he, fun w hw => by simp at hw; subst hw; simpa using h⟩
    | failure e =>
      by_cases hg : attempt < retries ∧ isRetryable e = true
      · exact absurd hg.1 (by omega)
      · rw [execute_failure_stop h hg]
        refine ⟨fun e' he' => ?_, fun w hw => by simp at hw⟩
        simp at he'
        subst he'
        refine ⟨by simpa using h, ?_⟩
        by_cases hr : isRetryable e = true
        · right; intro hlt; exact hg ⟨by simpa using hlt, hr⟩
        · left; simpa using hr
  | succ f ih =>
    intro attempt hfuel
    cases h : outcomes attempt with
    | success v =>
      rw [execute_success h]
      exact ⟨fun e he => by simp at he, fun w hw => by simp at hw; subst hw; simpa using h⟩
    | failure e =>
      by_cases hg : attempt < retries ∧ isRetryable e = true
      · rw [execute_failure_retry h hg]
        have hrec := ih (attempt + 1) (by omega)
        simp only [List.length_cons]
        have harith : attempt + ((execute outcomes jitter retries (attempt + 1) f).2.length + 1) =
            attempt + 1 + (execute outcomes jitter retries (attempt + 1) f).2.length := by omega
        rw [harith]
        exact hrec
      · rw [execute_failure_stop h hg]
        refine ⟨fun e' he' => ?_, fun w hw => by simp at hw⟩
        simp at he'
        subst he'
        refine ⟨by simpa using h, ?_⟩
        by_cases hr : isRetryable e = true
        · right; intro hlt; exact hg ⟨by simpa using hlt, hr⟩
        · left; simpa using hr

theorem execute_retries_all (outcomes : Nat → FetchOutcome α) (jitter : Nat → ℚ) (retries : Nat) :
    ∀ m fuel attempt,
      (∀ i, i < m → ∃ e, outcomes (attempt + i) = .failure e ∧ isRetryable e = true) →
      attempt + m ≤ retries → m ≤ fuel →
      m ≤ (execute outcomes jitter retries attempt fuel).2.length := by
  intro m
  induction m with
  | zero => intro fuel attempt _ _ _; omega
  | succ n ih =>
    intro fuel attempt hall hm hf
    obtain ⟨e, he, hr⟩ := hall 0 (by omega)
    rw [Nat.add_zero] at he
    have hg : attempt < retries ∧ isRetryable e = true := ⟨by omega, hr⟩
    obtain ⟨f, rfl⟩ : ∃ f, fuel = f + 1 := ⟨fuel - 1, by omega⟩
    rw [execute_failure_retry he hg]
    simp only [List.length_cons]
    have := ih f (attempt + 1) (fun i hi => by
      have h2 := hall (i + 1) (by omega)
      rw [show attempt + 1 + i = attempt + (i + 1) by omega]
      exact h2) (by omega) (by omega)
    omega

end RpcRateLimiter

namespace RpcRateLimiter

/-- C6: the retry delays of the rate-limited access layer follow
`delay = min(cap, base * 2 ^ attempt + jitter)` with `base = 500` ms and
`cap = 60000` ms, are non-decreasing, and at most `maxRetries = 5` retries
happen; and the doubling backoff of the cached fetcher satisfies
`backoffSeq k = min(cap, 500 * 2 ^ k)`. -/
theorem retry_backoff_policy (outcomes : Nat → FetchOutcome α) (jitter : Nat → ℚ)
    (hj : ∀ a, 0 ≤ jitter a ∧ jitter a < 100) :
    (retryWrapper outcomes jitter).2.length ≤ 5 ∧
    (∀ k v, (retryWrapper outcomes jitter).2.get? k = some v →
      v = min 60000 (2 ^ k * 500 + jitter k)) ∧
    (retryWrapper outcomes jitter).2.Chain' (· ≤ ·) ∧
    (∀ k, backoffSeq k = min 60000 (500 * 2 ^ k)) := by
  have hval : ∀ k v, (retryWrapper outcomes jitter).2.get? k = some v →
      v = 2 ^ k * 500 + jitter k ∧ k < 5 := by
    intro k v hv
    have h0 := execute_getq outcomes jitter 5 5 0 k v hv
    rw [Nat.zero_add] at h0
    exact ⟨h0.1, h0.2.2⟩
  refine ⟨by simpa using execute_length_le outcomes jitter 5 5 0, ?_, ?_, ?_⟩
  · intro k v hv
    obtain ⟨hform, hk⟩ := hval k v hv
    have hpow : (2 : ℚ) ^ k ≤ 2 ^ 4 := by
      apply pow_le_pow_right₀ (by norm_num)
      omega
    have hjk := hj k
    have hle : (2 : ℚ) ^ k * 500 + jitter k ≤ 60000 := by
      have : (2 : ℚ) ^ 4 = 16 := by norm_num
      nlinarith
    rw [hform, min_eq_right hle]
  · rw [List.chain'_iff_get]
    intro i hlt
    have hi1 : i < (retryWrapper outcomes jitter).2.length := by omega
    have hi2 : i + 1 < (retryWrapper outcomes jitter).2.length := by omega
    have h₁ := hval i _ (List.get?_eq_get hi1)
    have h₂ := hval (i + 1) _ (List.get?_eq_get hi2)
    rw [h₁.1, h₂.1]
    have hj₁ := hj i
    have hj₂ := hj (i + 1)
    have hpow : (1 : ℚ) ≤ 2 ^ i := one_le_pow₀ (by norm_num)
    have hsucc : (2 : ℚ) ^ (i + 1) = 2 ^ i * 2 := pow_succ 2 i
    nlinarith
  · intro k
    induction k with
    | zero =>
      rw [show backoffSeq 0 = 500 from rfl, pow_zero, mul_one,
        min_eq_right (by norm_num : (500 : ℚ) ≤ 60000)]
    | succ n ihn =>
      rw [backoffSeq, ihn, pow_succ]
      rcases le_total ((500 : ℚ) * 2 ^ n) 60000 with h | h
      · rw [min_eq_right h, min_comm]
        ring_nf
      · have hp : (0 : ℚ) < 2 ^ n := by positivity
        have h2 : (60000 : ℚ) ≤ 500 * (2 ^ n * 2) := by nlinarith
        rw [min_eq_left h, min_eq_right (by norm_num : (60000 : ℚ) ≤ 60000 * 2),
          min_eq_left h2]

end RpcRateLimiter

namespace RpcRateLimiter

/-- C6 witness: the backoff-policy theorem applied to a concrete run with
zero jitter. -/
theorem retry_backoff_policy_witness :
    (retryWrapper (fun _ => FetchOutcome.success (0 : Nat)) (fun _ => 0)).2.length ≤ 5 :=
  (retry_backoff_policy (fun _ => FetchOutcome.success (0 : Nat)) (fun _ => 0)
    (fun _ => ⟨le_refl 0, by norm_num⟩)).1

/-- C5 counterexample: a fatal HTTP 404 error whose message merely contains
the substring `'429'` is classified retryable by the code and is in fact
retried once (one backoff delay is slept before the next attempt), even
though the spec's classification (429/500/502/503, reset, timeout) calls it
fatal. -/
theorem retry_classification_cex :
    isRetryable ⟨some 404, none, "Path /429/info not found"⟩ = true ∧
    specRetryable ⟨some 404, none, "Path /429/info not found"⟩ = false ∧
    (retryWrapper (α := Nat)
      (fun a => if a = 0 then .failure ⟨some 404, none, "Path /429/info not found"⟩
                else .success 1)
      (fun _ => 0)).2.length = 1 ∧
    (retryWrapper (α := Nat)
      (fun a => if a = 0 then .failure ⟨some 404, none, "Path /429/info not found"⟩
                else .success 1)
      (fun _ => 0)).1 = .ok 1 := by
  refine ⟨by decide, by decide, ?_, ?_⟩ <;> decide

/-- C5 amended: an error is retried exactly when the code's `isRetryable`
classification accepts it (HTTP 429/500/502/503, `ECONNRESET`, `ETIMEDOUT`,
code `'429'`, or a message containing `'429'` or `'Too Many Requests'`) and
the budget of 5 retries is not exhausted; fatal errors and exhaustion
propagate the actual upstream error, and a success is the actual upstream
value — this layer never substitutes empty data. -/
theorem retry_propagation (outcomes : Nat → FetchOutcome α) (jitter : Nat → ℚ) :
    (∀ k v, (retryWrapper outcomes jitter).2.get? k = some v →
        ∃ e, outcomes k = .failure e ∧ isRetryable e = true ∧ k < 5) ∧
    (∀ e, (retryWrapper outcomes jitter).1 = .error e →
        outcomes ((retryWrapper outcomes jitter).2.length) = .failure e ∧
          (isRetryable e = false ∨ (retryWrapper outcomes jitter).2.length = 5)) ∧
    (∀ v, (retryWrapper outcomes jitter).1 = .ok v →
        outcomes ((retryWrapper outcomes jitter).2.length) = .success v) ∧
    (∀ m, m ≤ 5 → (∀ i, i < m → ∃ e, outcomes i = .failure e ∧ isRetryable e = true) →
        m ≤ (retryWrapper outcomes jitter).2.length) := by
  have hres := execute_result outcomes jitter 5 5 0 (by omega)
  have hlen := execute_length_le outcomes jitter 5 5 0
  refine ⟨?_, ?_, ?_, ?_⟩
  · intro k v hv
    have h0 := execute_getq outcomes jitter 5 5 0 k v hv
    rw [Nat.zero_add] at h0
    obtain ⟨e, he, hr⟩ := h0.2.1
    exact ⟨e, he, hr, h0.2.2⟩
  · intro e he
    have := hres.1 e he
    rw [Nat.zero_add] at this
    refine ⟨this.1, ?_⟩
    rcases this.2 with h | h
    · exact Or.inl h
    · right
      show (execute outcomes jitter 5 0 5).2.length = 5
      omega
  · intro v hv
    have := hres.2 v hv
    rw [Nat.zero_add] at this
    exact this
  · intro m hm hall
    exact execute_retries_all outcomes jitter 5 m 5 0
      (fun i hi => by rw [Nat.zero_add]; exact hall i hi) (by omega) (by omega)

/-- C5 amended witness: five consecutive genuine 429 responses exhaust the
budget, so all five retries happen. -/
theorem retry_propagation_witness :
    5 ≤ (retryWrapper (α := Nat)
      (fun _ => .failure ⟨some 429, none, "Too Many Requests"⟩) (fun _ => 0)).2.length :=
  (retry_propagation (fun _ => .failure ⟨some 429, none, "Too Many Requests"⟩)
    (fun _ => 0)).2.2.2 5 (by norm_num)
    (fun i _ => ⟨⟨some 429, none, "Too Many Requests"⟩, rfl, by decide⟩)

end RpcRateLimiter

namespace TokenDataService

/-- State of the module-level variables of `fetchSplTokenDataWithCache`
(`src/services/tokenDataService.ts`, lines 44-143; `fetchRaydiumPoolsWithCache`
in part_001 is structurally identical).  Payloads are abstracted to lists of
naturals.  `fetchSlot` is the `fetchPromise` module variable; `running` holds
the retry loops that have been started and have not yet resolved with a
success or with retry exhaustion (a fired timer does NOT stop the loop);
`timerArmed` holds the loops whose 30-second `setTimeout` has neither fired
nor been cleared; `nextId` numbers promise creations, so it also counts how
often the upstream fetch loop was started; `joins` records, newest first,
which promise each completed caller invocation ended up awaiting. -/
structure SFState where
  cache : Option (List Nat)
  fetchSlot : Option Nat
  running : List Nat
  timerArmed : List Nat
  nextId : Nat
  joins : List Nat
deriving DecidableEq

/-- The initial state: cold cache, no in-flight fetch. -/
def sfInit : SFState :=
  { cache := none, fetchSlot := none, running := [], timerArmed := [], nextId := 0, joins := [] }

/-- Atomic events of the single-flight fetcher, each one event-loop segment
of the source:
`call` — one invocation of `fetchSplTokenDataWithCache` resumes after its
`getCache` await and runs to its `return` (lines 48-143): on a cache hit it
returns the cached value; otherwise it either joins the recorded
`fetchPromise` or, when `fetchPromise` is null, creates the promise, arms
the 30 s timer and starts the fetch loop — all before the first `await`
inside the executor.
`timeout id` — the `setTimeout` callback of loop `id` fires (lines 72-76):
it clears `fetchPromise` and resolves that promise with `[]`, while the
loop itself keeps running.
`complete id v` — loop `id` receives a 200 response (lines 105-113): caches
`v`, clears its timer, clears `fetchPromise` and resolves.
`exhaust id` — loop `id` exhausts `MAX_RETRIES` (lines 136-139): clears its
timer, clears `fetchPromise` and resolves with `[]`. -/
inductive SFEvent where
  | call
  | timeout (id : Nat)
  | complete (id : Nat) (v : List Nat)
  | exhaust (id : Nat)
deriving DecidableEq

/-- One step of the single-flight fetcher. -/
def sfStep (s : SFState) : SFEvent → SFState
  | .call =>
    match s.cache with
    | some _ => s
    | none =>
      match s.fetchSlot with
      | some p => { s with joins := p :: s.joins }
      | none =>
        { s with
            fetchSlot := some s.nextId
            running := s.nextId :: s.running
            timerArmed := s.nextId :: s.timerArmed
            joins := s.nextId :: s.joins
            nextId := s.nextId + 1 }
  | .timeout id =>
    if id ∈ s.timerArmed then
      { s with timerArmed := s.timerArmed.erase id, fetchSlot := none }
    else s
  | .complete id v =>
    if id ∈ s.running then
      { s with
          running := s.running.erase id
          timerArmed := s.timerArmed.erase id
          cache := some v
          fetchSlot := none }
    else s
  | .exhaust id =>
    if id ∈ s.running then
      { s with
          running := s.running.erase id
          timerArmed := s.timerArmed.erase id
          fetchSlot := none }
    else s

/-- Run the fetcher from a state through a list of events. -/
def sfRun (s : SFState) (evs : List SFEvent) : SFState :=
  evs.foldl sfStep s

end TokenDataService

namespace TokenDataService

theorem sfRun_calls_join (p : Nat) :
    ∀ (m : Nat) (s : SFState), s.cache = none → s.fetchSlot = some p →
      sfRun s (List.replicate m .call) = { s with joins := List.replicate m p ++ s.joins } := by
  intro m
  induction m with
  | zero => intro s _ _; simp [sfRun]
  | succ k ih =>
    intro s hc hs
    rw [List.replicate_succ]
    show sfRun (sfStep s .call) (List.replicate k .call) = _
    have hstep : sfStep s .call = { s with joins := p :: s.joins } := by
      simp [sfStep, hc, hs]
    rw [hstep, ih _ (by simp [hc]) (by simp [hs])]
    simp [List.replicate_succ']

/-- C4 counterexample: with a cold cache and a slow upstream, one caller
starts fetch loop 0; its 30 s timeout fires, which clears `fetchPromise`
while loop 0 keeps running; a second caller then finds no cache entry and
no in-flight record and starts fetch loop 1 — two upstream fetch loops are
now in flight at once, and the fetch function has been invoked twice. -/
theorem single_flight_timeout_cex :
    (sfRun sfInit [.call, .timeout 0, .call]).running = [1, 0] ∧
    (sfRun sfInit [.call, .timeout 0, .call]).nextId = 2 := by
  decide

/-- C4 amended: as long as no fetch-timeout fires, N concurrent cold-cache
callers invoke the upstream fetch exactly once and all await the same
promise 0; but across the timeout path the guarantee fails — after the
timer clears the in-flight record the abandoned loop is still running and
a later call starts a second concurrent upstream fetch. -/
theorem single_flight_calls (n : Nat) (hn : 0 < n) :
    (sfRun sfInit (List.replicate n .call)).nextId = 1 ∧
    (sfRun sfInit (List.replicate n .call)).running = [0] ∧
    (sfRun sfInit (List.replicate n .call)).joins = List.replicate n 0 ∧
    (sfRun sfInit [.call, .timeout 0, .call]).running.length = 2 := by
  obtain ⟨m, rfl⟩ : ∃ m, n = m + 1 := ⟨n - 1, by omega⟩
  rw [List.replicate_succ]
  have hstep : sfStep sfInit .call =
      { cache := none, fetchSlot := some 0, running := [0], timerArmed := [0],
        nextId := 1, joins := [0] } := by
    simp [sfStep, sfInit]
  have hrun : sfRun sfInit (SFEvent.call :: List.replicate m .call) =
      sfRun (sfStep sfInit .call) (List.replicate m .call) := rfl
  rw [hrun, hstep, sfRun_calls_join 0 m _ rfl rfl]
  refine ⟨rfl, rfl, ?_, by decide⟩
  simp [List.replicate_succ']

/-- C4 amended witness: three concurrent cold-cache callers. -/
theorem single_flight_calls_witness :
    (sfRun sfInit (List.replicate 3 .call)).nextId = 1 ∧
    (sfRun sfInit (List.replicate 3 .call)).running = [0] ∧
    (sfRun sfInit (List.replicate 3 .call)).joins = List.replicate 3 0 ∧
    (sfRun sfInit [.call, .timeout 0, .call]).running.length = 2 :=
  single_flight_calls 3 (by norm_num)

/-- What `JSON.parse` plus the `Array.isArray` check see in a cached string:
a well-formed array payload, a parseable non-array payload, or a payload
that fails to parse. -/
inductive CachedPayload where
  | arr (tokens : List Nat)
  | nonArray
  | malformed
deriving DecidableEq

/-- Outcome of the cache-inspection phase: either a hit served without
invoking the fetch path, or a fall-through to the fetch path, recording
whether a corrupt entry was evicted first. -/
inductive CacheDecision where
  | hit (tokens : List Nat)
  | refetch (evicted : Bool)
deriving DecidableEq

/-- The cache-inspection phase of `fetchSplTokenDataWithCache` (lines
48-64): a missing entry falls through to the fetch path; a parsed array is
returned as a hit; a non-array or unparseable payload is evicted
(`setCache(CACHE_KEY, '', 1)`) and falls through to the fetch path. -/
def cachePhase (cached : Option CachedPayload) : CacheDecision :=
  match cached with
  | none => .refetch false
  | some (.arr tokens) => .hit tokens
  | some .nonArray => .refetch true
  | some .malformed => .refetch true

/-- C7: a live well-formed cache entry is returned as a hit without
touching the fetch machinery (the state is unchanged, so the fetch function
is not invoked); a corrupt payload — non-array or unparseable — is treated
as a miss with eviction and falls through to the fetch path, which, with no
fetch in flight, starts a fresh upstream fetch. -/
theorem cache_hit_and_corrupt :
    (∀ ts, cachePhase (some (.arr ts)) = .hit ts) ∧
    (cachePhase (some .nonArray) = .refetch true) ∧
    (cachePhase (some .malformed) = .refetch true) ∧
    (cachePhase none = .refetch false) ∧
    (∀ (s : SFState) (v : List Nat), s.cache = some v → sfStep s .call = s) ∧
    (∀ s : SFState, s.cache = none → s.fetchSlot = none →
      (sfStep s .call).nextId = s.nextId + 1 ∧ (sfStep s .call).fetchSlot = some s.nextId) := by
  refine ⟨fun ts => rfl, rfl, rfl, rfl, ?_, ?_⟩
  · intro s v hc
    simp [sfStep, hc]
  · intro s hc hs
    simp [sfStep, hc, hs]

/-- C7 witness: the cache-behaviour theorem applied at concrete states. -/
theorem cache_hit_and_corrupt_witness :
    sfStep { sfInit with cache := some [5] } .call = { sfInit with cache := some [5] } ∧
    (sfStep sfInit .call).nextId = sfInit.nextId + 1 :=
  ⟨cache_hit_and_corrupt.2.2.2.2.1 _ [5] rfl,
    (cache_hit_and_corrupt.2.2.2.2.2 sfInit rfl rfl).1⟩

end TokenDataService

namespace TokenDataService

/-- Insert one balance into a descending-sorted list. -/
def insertDesc (x : ℚ) : List ℚ → List ℚ
  | [] => [x]
  | y :: ys => if y < x then x :: y :: ys else y :: insertDesc x ys

/-- The `sort((a, b) => (b.uiAmount || 0) - (a.uiAmount || 0))` of
`getTopHoldersConcentration`: the account balances in descending order. -/
def sortDesc (l : List ℚ) : List ℚ := l.foldr insertDesc []

theorem insertDesc_length (x : ℚ) : ∀ l : List ℚ, (insertDesc x l).length = l.length + 1 := by
  intro l
  induction l with
  | nil => rfl
  | cons y ys ih =>
    by_cases h : y < x
    · simp [insertDesc, h]
    · simp [insertDesc, h, ih]

theorem sortDesc_length (l : List ℚ) : (sortDesc l).length = l.length := by
  induction l with
  | nil => rfl
  | cons y ys ih => simp [sortDesc, List.foldr] at ih ⊢; rw [insertDesc_length, ih]

/-- `getTopHoldersConcentration` (`src/services/tokenDataService.ts`,
lines 218-265; part_001 lines 217-247 is the same computation).  Inputs are
the outcome of the mint validation, of the largest-accounts fetch (balances
as `uiAmount || 0`) and of the supply fetch (`uiAmount || 0`); any fetch
error is caught and yields 0, an empty account list yields 0, a zero total
supply yields 0, and otherwise the result is the sum of the top `topN`
balances divided by the total supply, times 100. -/
def getTopHoldersConcentration (validMint : Bool) (largestAccounts : Except Unit (List ℚ))
    (supply : Except Unit ℚ) (topN : Nat := 10) : ℚ :=
  if validMint = false then 0
  else
    match largestAccounts with
    | .error _ => 0
    | .ok accounts =>
      if accounts.isEmpty then 0
      else
        match supply with
        | .error _ => 0
        | .ok totalSupply =>
          if totalSupply = 0 then 0
          else ((sortDesc accounts).take topN).sum / totalSupply * 100

/-- C8: with the account list and the supply available, the concentration
is the sum of the top `min 10 (number of accounts)` balances over the total
supply, times 100; supply 1,000,000 with ten balances of 25,000 (plus a
smaller eleventh) gives exactly 25; an empty account list or a zero supply
gives 0. -/
theorem concentration_formula :
    (∀ (accounts : List ℚ) (totalSupply : ℚ), accounts ≠ [] → totalSupply ≠ 0 →
      getTopHoldersConcentration true (.ok accounts) (.ok totalSupply) =
        ((sortDesc accounts).take (min 10 accounts.length)).sum / totalSupply * 100) ∧
    (getTopHoldersConcentration true
      (.ok (List.replicate 10 25000 ++ [1000])) (.ok 1000000) = 25) ∧
    (∀ supply, getTopHoldersConcentration true (.ok []) supply = 0) ∧
    (∀ largestAccounts, getTopHoldersConcentration true largestAccounts (.ok 0) = 0) := by
  refine ⟨?_, ?_, ?_, ?_⟩
  · intro accounts totalSupply hne hs
    have htake : (sortDesc accounts).take (min 10 accounts.length) =
        (sortDesc accounts).take 10 := by
      rw [List.take_eq_take]
      rw [sortDesc_length]
      omega
    rw [htake]
    simp [getTopHoldersConcentration, hne, hs, List.isEmpty_iff]
  · norm_num [getTopHoldersConcentration, sortDesc, insertDesc, List.replicate]
  · intro supply
    simp [getTopHoldersConcentration]
  · intro largestAccounts
    cases largestAccounts with
    | error e => simp [getTopHoldersConcentration]
    | ok accounts =>
      by_cases h : accounts.isEmpty <;> simp [getTopHoldersConcentration, h]

/-- C8 witness: the formula applied to one account of balance 10 and
supply 5. -/
theorem concentration_formula_witness :
    getTopHoldersConcentration true (.ok [10]) (.ok 5) =
      ((sortDesc [10]).take (min 10 [(10 : ℚ)].length)).sum / 5 * 100 :=
  concentration_formula.1 [10] 5 (by simp) (by norm_num)

end TokenDataService

namespace TokenFilters

/-- Per-user criteria as read by the first revision of `applyFilters`
(`src/services/tokenFilters.ts`, lines 6-34): each field nullable, `null`
meaning no constraint. -/
structure UserSettings where
  liquidityThreshold : Option ℚ
  requireMintAuthority : Option Bool
  topHoldersThreshold : Option ℚ
deriving DecidableEq

/-- Outcomes of the provider calls a filter evaluation performs.
`getLiquidity` and `hasMintAuthority` catch their own errors and return the
conservative defaults 0 and `false`, so they are plain values here; the
holder-concentration inputs are passed through to
`TokenDataService.getTopHoldersConcentration`, which models the
try/catch inside that provider. -/
structure ProviderEnv where
  liquidity : ℚ
  mintAuthority : Bool
  validMint : Bool
  largestAccounts : Except Unit (List ℚ)
  supply : Except Unit ℚ
deriving DecidableEq

/-- The first revision of `applyFilters` (`src/services/tokenFilters.ts`,
lines 6-34): liquidity below the threshold rejects; a mint-authority flag
different from the required one rejects; a top-holders concentration above
the threshold rejects; otherwise the token passes.  Each check is skipped
when its setting is `null`. -/
def applyFilters (env : ProviderEnv) (userSettings : UserSettings) : Bool :=
  if (match userSettings.liquidityThreshold with
      | some t => decide (env.liquidity < t)
      | none => false) then false
  else if (match userSettings.requireMintAuthority with
      | some r => decide (env.mintAuthority ≠ r)
      | none => false) then false
  else if (match userSettings.topHoldersThreshold with
      | some t => decide
          (TokenDataService.getTopHoldersConcentration env.validMint
            env.largestAccounts env.supply > t)
      | none => false) then false
  else true

end TokenFilters

namespace TokenFiltersBoost

/-- Per-user criteria of the boost-amount revision of `applyFilters`
(`src/services/tokenFilters.ts`, lines 47-66). -/
structure BoostSettings where
  boostamount : Option ℚ
deriving DecidableEq

/-- The boost-amount revision of `applyFilters` (lines 47-66): the whole
body is wrapped in try/catch, so a failing settings fetch yields `false`;
otherwise the token's `totalAmount || 0` must reach the user's
`boostamount` when set. -/
def applyFilters (settingsOutcome : Except Unit BoostSettings)
    (dexTotalAmount : Option ℚ) : Bool :=
  match settingsOutcome with
  | .error _ => false
  | .ok settings =>
    match settings.boostamount with
    | none => true
    | some t => if dexTotalAmount.getD 0 < t then false else true

end TokenFiltersBoost

namespace TokenFilters

/-- C3 counterexample: the holder-concentration fetch throws while every
other predicate passes (liquidity 50 against threshold 10, mint authority
matching), yet `applyFilters` returns `true` — the provider converts the
failure to concentration 0, which passes the threshold of 50. -/
theorem filters_fail_open_cex :
    applyFilters
      { liquidity := 50, mintAuthority := false, validMint := true,
        largestAccounts := .error (), supply := .ok 1000000 }
      { liquidityThreshold := some 10, requireMintAuthority := some false,
        topHoldersThreshold := some 50 } = true := by
  decide

/-- C3 amended: a failure of the holder-concentration fetch is caught
inside `getTopHoldersConcentration` and converted to 0, which passes any
non-negative threshold, so `applyFilters` returns `true` (not `false`)
when all other predicates pass; the fail-closed behaviour the claim
describes holds only for errors raised in `applyFilters`' own body, and
only in the revisions that wrap the body in try/catch, such as the
boost-amount revision, where a failing settings fetch yields `false`. -/
theorem filters_fail_open (t liquidity : ℚ) (ht : 0 ≤ t) (auth : Bool)
    (supply : Except Unit ℚ) :
    (applyFilters
      { liquidity := liquidity, mintAuthority := auth, validMint := true,
        largestAccounts := .error (), supply := supply }
      { liquidityThreshold := none, requireMintAuthority := none,
        topHoldersThreshold := some t } = true) ∧
    (∀ v largestAccounts,
      TokenDataService.getTopHoldersConcentration v (.error ()) largestAccounts = 0) ∧
    (∀ d, TokenFiltersBoost.applyFilters (.error ()) d = false) := by
  refine ⟨?_, ?_, ?_⟩
  · simp only [applyFilters, TokenDataService.getTopHoldersConcentration]
    simp only [if_neg (by simp : ¬(true = false))]
    simp [not_lt.mpr ht]
  · intro v largestAccounts
    cases v <;> rfl
  · intro d
    rfl

/-- C3 amended witness: threshold 50, liquidity 7, no authority required. -/
theorem filters_fail_open_witness :
    applyFilters
      { liquidity := 7, mintAuthority := false, validMint := true,
        largestAccounts := .error (), supply := .ok 3 }
      { liquidityThreshold := none, requireMintAuthority := none,
        topHoldersThreshold := some 50 } = true :=
  (filters_fail_open 50 7 (by norm_num) false (.ok 3)).1

end TokenFilters

namespace SolanaListenerPoll

/-- One candidate from the boosted-tokens feed as seen by `pollDexScreener`
(part_007, lines 198-243): its address, and the results of the three
per-candidate gates preceding the filter evaluation. -/
structure Candidate where
  tokenAddress : Nat
  validMint : Bool
  chainSolana : Bool
  young : Bool
deriving DecidableEq

/-- The per-candidate guard chain of `pollDexScreener` (lines 205-223):
invalid mints, non-Solana chains and stale or unknown creation times are
skipped; the remaining candidates are evaluated against the user's
filters. -/
def eligible (passes : Nat → Candidate → Bool) (uid : Nat) (c : Candidate) : Bool :=
  c.validMint && c.chainSolana && c.young && passes uid c

/-- The inner `for (const dexToken of boostedTokens)` loop of
`pollDexScreener` (lines 202-242) for one user `uid`: every eligible
candidate is alerted and purchased, after which
`activeUserIds.delete(uid)` runs — with no `break`, so the loop continues
with the remaining candidates.  Returns the purchases made (as
`(uid, tokenAddress)` pairs, in order) and the updated `activeUserIds`. -/
def processUser (passes : Nat → Candidate → Bool) (uid : Nat) :
    List Candidate → List Nat → List (Nat × Nat) × List Nat
  | [], active => ([], active)
  | c :: rest, active =>
    if eligible passes uid c then
      let r := processUser passes uid rest (active.erase uid)
      ((uid, c.tokenAddress) :: r.1, r.2)
    else processUser passes uid rest active

/-- The outer `for (const uid of users)` loop of `pollDexScreener`
(lines 201-243), iterating over the snapshot `users` taken at cycle start
while `activeUserIds` is mutated underneath. -/
def pollCycleGo (passes : Nat → Candidate → Bool) (tokens : List Candidate) :
    List Nat → List Nat → List (Nat × Nat) × List Nat
  | [], active => ([], active)
  | uid :: us, active =>
    let r := processUser passes uid tokens active
    let r' := pollCycleGo passes tokens us r.2
    (r.1 ++ r'.1, r'.2)

/-- One cycle of `pollDexScreener` (lines 183-255): the user snapshot
`users = Array.from(activeUserIds)` is taken at cycle start, then every
snapshot user is evaluated against every candidate. -/
def pollDexScreener (passes : Nat → Candidate → Bool) (tokens : List Candidate)
    (active : List Nat) : List (Nat × Nat) × List Nat :=
  pollCycleGo passes tokens active active

end SolanaListenerPoll

namespace SolanaListenerPoll

theorem processUser_fst (passes : Nat → Candidate → Bool) (uid : Nat) :
    ∀ (tokens : List Candidate) (active : List Nat),
      (processUser passes uid tokens active).1 =
        (tokens.filter (eligible passes uid)).map (fun c => (uid, c.tokenAddress)) := by
  intro tokens
  induction tokens with
  | nil => intro active; rfl
  | cons c rest ih =>
    intro active
    by_cases h : eligible passes uid c = true
    · simp [processUser, h, List.filter_cons, ih]
    · simp only [processUser]
      rw [if_neg (by simpa using h)]
      simp [List.filter_cons, h, ih]

theorem processUser_snd_subset (passes : Nat → Candidate → Bool) (uid : Nat) :
    ∀ (tokens : List Candidate) (active : List Nat),
      (processUser passes uid tokens active).2 ⊆ active := by
  intro tokens
  induction tokens with
  | nil => intro active; exact fun x hx => hx
  | cons c rest ih =>
    intro active
    by_cases h : eligible passes uid c = true
    · simp only [processUser, if_pos h]
      exact fun x hx => List.mem_of_mem_erase (ih (active.erase uid) hx)
    · simp only [processUser, if_neg h]
      exact ih active

theorem processUser_snd_nodup (passes : Nat → Candidate → Bool) (uid : Nat) :
    ∀ (tokens : List Candidate) (active : List Nat), active.Nodup →
      (processUser passes uid tokens active).2.Nodup := by
  intro tokens
  induction tokens with
  | nil => intro active h; exact h
  | cons c rest ih =>
    intro active h
    by_cases hc : eligible passes uid c = true
    · simp only [processUser, if_pos hc]
      exact ih _ (h.erase uid)
    · simp only [processUser, if_neg hc]
      exact ih _ h

theorem processUser_not_mem (passes : Nat → Candidate → Bool) (uid : Nat) :
    ∀ (tokens : List Candidate) (active : List Nat), uid ∉ active →
      (processUser passes uid tokens active).2 = active := by
  intro tokens
  induction tokens with
  | nil => intro active _; rfl
  | cons c rest ih =>
    intro active h
    by_cases hc : eligible passes uid c = true
    · simp only [processUser, if_pos hc]
      rw [List.erase_of_not_mem h, ih active h]
    · simp only [processUser, if_neg hc]
      exact ih active h

theorem processUser_retires (passes : Nat → Candidate → Bool) (uid : Nat) :
    ∀ (tokens : List Candidate) (active : List Nat), active.Nodup →
      (∃ c ∈ tokens, eligible passes uid c = true) →
      uid ∉ (processUser passes uid tokens active).2 := by
  intro tokens
  induction tokens with
  | nil => intro active _ h; simp at h
  | cons c rest ih =>
    intro active hnd h
    by_cases hc : eligible passes uid c = true
    · simp only [processUser, if_pos hc]
      intro hmem
      have h1 : uid ∉ active.erase uid := hnd.not_mem_erase
      have h2 : (processUser passes uid rest (active.erase uid)).2 = active.erase uid :=
        processUser_not_mem passes uid rest _ h1
      rw [h2] at hmem
      exact h1 hmem
    · simp only [processUser, if_neg hc]
      rcases h with ⟨c', hc', he⟩
      rcases List.mem_cons.mp hc' with rfl | hmem
      · exact absurd he hc
      · exact ih active hnd ⟨c', hmem, he⟩

theorem processUser_preserves_not_mem (passes : Nat → Candidate → Bool) (uid x : Nat)
    (tokens : List Candidate) (active : List Nat) (h : x ∉ active) :
    x ∉ (processUser passes uid tokens active).2 :=
  fun hx => h (processUser_snd_subset passes uid tokens active hx)

end SolanaListenerPoll

namespace SolanaListenerPoll

theorem pollCycleGo_preserves_not_mem (passes : Nat → Candidate → Bool)
    (tokens : List Candidate) (x : Nat) :
    ∀ (us active : List Nat), x ∉ active → x ∉ (pollCycleGo passes tokens us active).2 := by
  intro us
  induction us with
  | nil => intro active h; exact h
  | cons uid rest ih =>
    intro active h
    simp only [pollCycleGo]
    exact ih _ (processUser_preserves_not_mem passes uid x tokens active h)

theorem pollCycleGo_nodup (passes : Nat → Candidate → Bool) (tokens : List Candidate) :
    ∀ (us active : List Nat), active.Nodup → (pollCycleGo passes tokens us active).2.Nodup := by
  intro us
  induction us with
  | nil => intro active h; exact h
  | cons uid rest ih =>
    intro active h
    simp only [pollCycleGo]
    exact ih _ (processUser_snd_nodup passes uid tokens active h)

theorem pollCycleGo_fst_mem (passes : Nat → Candidate → Bool) (tokens : List Candidate) :
    ∀ (us active : List Nat) (u : Nat) (c : Candidate), u ∈ us → c ∈ tokens →
      eligible passes u c = true →
      (u, c.tokenAddress) ∈ (pollCycleGo passes tokens us active).1 := by
  intro us
  induction us with
  | nil => intro active u c h; simp at h
  | cons uid rest ih =>
    intro active u c hu hc he
    simp only [pollCycleGo, List.mem_append]
    rcases List.mem_cons.mp hu with rfl | hmem
    · left
      rw [processUser_fst]
      exact List.mem_map.mpr ⟨c, List.mem_filter.mpr ⟨hc, he⟩, rfl⟩
    · right
      exact ih _ u c hmem hc he

theorem pollCycleGo_retires (passes : Nat → Candidate → Bool) (tokens : List Candidate) :
    ∀ (us active : List Nat) (u : Nat), active.Nodup → u ∈ us →
      (∃ c ∈ tokens, eligible passes u c = true) →
      u ∉ (pollCycleGo passes tokens us active).2 := by
  intro us
  induction us with
  | nil => intro active u _ h; simp at h
  | cons uid rest ih =>
    intro active u hnd hu he
    simp only [pollCycleGo]
    rcases List.mem_cons.mp hu with rfl | hmem
    · exact pollCycleGo_preserves_not_mem passes tokens u rest _
        (processUser_retires passes u tokens active hnd he)
    · exact ih _ u (processUser_snd_nodup passes uid tokens active hnd) hmem he

theorem pollCycleGo_fst_snapshot (passes : Nat → Candidate → Bool) (tokens : List Candidate) :
    ∀ (us active : List Nat) (u t : Nat),
      (u, t) ∈ (pollCycleGo passes tokens us active).1 → u ∈ us := by
  intro us
  induction us with
  | nil => intro active u t h; simp [pollCycleGo] at h
  | cons uid rest ih =>
    intro active u t h
    simp only [pollCycleGo, List.mem_append] at h
    rcases h with h | h
    · rw [processUser_fst] at h
      obtain ⟨c, _, hc⟩ := List.mem_map.mp h
      cases hc
      exact List.mem_cons_self uid rest
    · exact List.mem_cons_of_mem uid (ih _ u t h)

/-- C1 counterexample: `WatcherSet = {7}` and a candidate stream
`[T1, T2]` where both candidates satisfy user 7's criteria.  The cycle
purchases T1 for user 7, deletes 7 from `activeUserIds`, and then — the
inner loop having no `break` and iterating the snapshot — evaluates 7
against T2 and purchases it too, in the same cycle. -/
theorem first_match_cex :
    pollDexScreener (fun _ _ => true)
      [{ tokenAddress := 1, validMint := true, chainSolana := true, young := true },
       { tokenAddress := 2, validMint := true, chainSolana := true, young := true }]
      [7] = ([(7, 1), (7, 2)], []) := by
  decide

/-- C1 amended: within one cycle a snapshot user is matched and purchased
on EVERY eligible candidate, not just the first — the deletion does not
stop the inner loop; the user is however removed from `activeUserIds` at
the first match, so later cycles (whose snapshots are taken from the
updated set) never evaluate them again; and a cycle only ever purchases
for users of its snapshot. -/
theorem first_match_amended (passes : Nat → Candidate → Bool) (tokens : List Candidate)
    (active : List Nat) (hnd : active.Nodup) :
    (∀ u, u ∈ active → ∀ c, c ∈ tokens → eligible passes u c = true →
      (u, c.tokenAddress) ∈ (pollDexScreener passes tokens active).1) ∧
    (∀ u, u ∈ active → (∃ c ∈ tokens, eligible passes u c = true) →
      u ∉ (pollDexScreener passes tokens active).2) ∧
    (∀ u t, (u, t) ∈ (pollDexScreener passes tokens active).1 → u ∈ active) := by
  refine ⟨?_, ?_, ?_⟩
  · intro u hu c hc he
    exact pollCycleGo_fst_mem passes tokens active active u c hu hc he
  · intro u hu he
    exact pollCycleGo_retires passes tokens active active u hnd hu he
  · intro u t h
    exact pollCycleGo_fst_snapshot passes tokens active active u t h

/-- C1 amended witness: the amended cycle behaviour at the concrete
counterexample input. -/
theorem first_match_amended_witness :
    (7, 2) ∈ (pollDexScreener (fun _ _ => true)
      [{ tokenAddress := 1, validMint := true, chainSolana := true, young := true },
       { tokenAddress := 2, validMint := true, chainSolana := true, young := true }]
      [7]).1 :=
  (first_match_amended (fun _ _ => true)
    [{ tokenAddress := 1, validMint := true, chainSolana := true, young := true },
     { tokenAddress := 2, validMint := true, chainSolana := true, young := true }]
    [7] (by decide)).1 7 (by decide)
    { tokenAddress := 2, validMint := true, chainSolana := true, young := true }
    (by decide) (by decide)

end SolanaListenerPoll

namespace SolanaListenerPoll

/-- The statements run after a filter pass in `pollDexScreener` (part_007,
lines 227-238): alert message, `purchaseToken`, then
`activeUserIds.delete(uid)` — the deletion is unconditional, the purchase
outcome only selects the log line. -/
def matchStep (purchaseSuccess : Bool) (active : List Nat) (uid : Nat) : List Nat :=
  active.erase uid

end SolanaListenerPoll

namespace SolanaListenerPush

/-- The per-user body of the `onProgramAccountChange` callback (part_007,
third revision, lines 587-622): when the filters pass, the alert is sent
and `purchaseToken` is attempted, but `activeUserIds.delete(uid)` runs only
inside `if (purchaseSuccess)`.  Returns whether a purchase was attempted,
paired with the updated `activeUserIds`. -/
def listenerProcessUser (passes purchaseSuccess : Bool) (active : List Nat)
    (uid : Nat) : Bool × List Nat :=
  if passes then
    (true, if purchaseSuccess then active.erase uid else active)
  else (false, active)

/-- C2 counterexample: in the push-listener revision, user 7 matches, the
purchase is attempted and fails, and user 7 is still in `activeUserIds` —
a purchase was attempted for a user who remains Armed. -/
theorem retire_regardless_cex :
    (listenerProcessUser true false [7] 7).1 = true ∧
    7 ∈ (listenerProcessUser true false [7] 7).2 := by
  decide

/-- C2 amended: in the polling revision the user is removed from the
WatcherSet immediately after the purchase attempt regardless of its
outcome; in the push-listener revision the user is removed only when
`purchaseToken` reports success, so a failed purchase leaves the user
Armed. -/
theorem retire_on_match (active : List Nat) (uid : Nat) (hnd : active.Nodup) :
    (∀ s₁ s₂ : Bool,
      SolanaListenerPoll.matchStep s₁ active uid = SolanaListenerPoll.matchStep s₂ active uid) ∧
    (∀ s : Bool, uid ∉ SolanaListenerPoll.matchStep s active uid) ∧
    ((listenerProcessUser true true active uid).2 = active.erase uid ∧
      uid ∉ (listenerProcessUser true true active uid).2) ∧
    ((listenerProcessUser true false active uid).2 = active ∧
      (listenerProcessUser true false active uid).1 = true) := by
  refine ⟨fun s₁ s₂ => rfl, fun s => hnd.not_mem_erase, ⟨rfl, hnd.not_mem_erase⟩, rfl, rfl⟩

/-- C2 amended witness: the retirement behaviour at `WatcherSet = {7}`. -/
theorem retire_on_match_witness :
    7 ∉ SolanaListenerPoll.matchStep false [7] 7 ∧
    (listenerProcessUser true false [7] 7).2 = [7] :=
  ⟨(retire_on_match [7] 7 (by decide)).2.1 false,
    (retire_on_match [7] 7 (by decide)).2.2.2.1⟩

end SolanaListenerPush

namespace SolanaListenerPoll

/-- Log levels of the logger collaborator. -/
inductive LogLevel where
  | debug
  | info
  | warn
  | error
deriving DecidableEq

/-- The module state driving `startTokenListener` / `stopTokenListener`
(part_007, lines 46-48): the `activeUserIds` set (as a duplicate-free list
in insertion order) and whether the polling interval is installed
(`intervalId !== null`). -/
structure ListenerState where
  activeUserIds : List Nat
  polling : Bool
deriving DecidableEq

/-- `startPolling` (lines 257-264): installs the interval when absent. -/
def startPolling (s : ListenerState) : ListenerState × LogLevel :=
  if s.polling then (s, .debug)
  else ({ s with polling := true }, .info)

/-- `stopPolling` (lines 266-272): clears the interval when present. -/
def stopPolling (s : ListenerState) : ListenerState × Option LogLevel :=
  if s.polling then ({ s with polling := false }, some .info)
  else (s, none)

/-- `startTokenListener` (lines 277-287): a warning-only no-op when the
user is already armed; otherwise the user is added (`Set.add` appends a
fresh element) and polling is started.  Returns the new state and the log
lines emitted. -/
def startTokenListener (s : ListenerState) (userId : Nat) : ListenerState × List LogLevel :=
  if userId ∈ s.activeUserIds then (s, [.warn])
  else
    let s₁ : ListenerState := { s with activeUserIds := s.activeUserIds ++ [userId] }
    let r := startPolling s₁
    (r.1, [.info, r.2])

/-- `stopTokenListener` (lines 292-304): a warning-only no-op when the user
is not armed; otherwise the user is removed and polling is stopped once no
active user remains. -/
def stopTokenListener (s : ListenerState) (userId : Nat) : ListenerState × List LogLevel :=
  if userId ∈ s.activeUserIds then
    let s₁ : ListenerState := { s with activeUserIds := s.activeUserIds.erase userId }
    if s₁.activeUserIds.isEmpty then
      let r := stopPolling s₁
      (r.1, .info :: r.2.toList)
    else (s₁, [.info])
  else (s, [.warn])

/-- C9: `startTokenListener` and `stopTokenListener` are idempotent —
starting an already-armed user leaves exactly one Armed entry, changes
nothing else, and logs a warning; stopping a user who is not armed is a
logged no-op. -/
theorem start_stop_idempotent (s : ListenerState) (userId : Nat)
    (hnd : s.activeUserIds.Nodup) :
    ((startTokenListener s userId).1.activeUserIds.count userId = 1) ∧
    (startTokenListener (startTokenListener s userId).1 userId =
      ((startTokenListener s userId).1, [.warn])) ∧
    (userId ∉ s.activeUserIds → stopTokenListener s userId = (s, [.warn])) := by
  have hmem : userId ∈ (startTokenListener s userId).1.activeUserIds := by
    by_cases h : userId ∈ s.activeUserIds
    · simp [startTokenListener, h]
    · by_cases hp : s.polling <;>
        simp [startTokenListener, h, startPolling, hp]
  refine ⟨?_, ?_, ?_⟩
  · by_cases h : userId ∈ s.activeUserIds
    · simp only [startTokenListener, if_pos h]
      exact List.count_eq_one_of_mem hnd h
    · have hcount : s.activeUserIds.count userId = 0 := List.count_eq_zero.mpr h
      by_cases hp : s.polling <;>
        simp [startTokenListener, h, startPolling, hp, List.count_append, hcount]
  · generalize hq : (startTokenListener s userId).1 = t at hmem ⊢
    simp [startTokenListener, hmem]
  · intro h
    simp [stopTokenListener, h]

/-- C9 witness: arming user 3 from the empty state, then re-arming and
wrongly stopping. -/
theorem start_stop_idempotent_witness :
    ((startTokenListener ⟨[], false⟩ 3).1.activeUserIds.count 3 = 1) ∧
    (stopTokenListener ⟨[], false⟩ 3 = (⟨[], false⟩, [.warn])) :=
  ⟨(start_stop_idempotent ⟨[], false⟩ 3 (by decide)).1,
    (start_stop_idempotent ⟨[], false⟩ 3 (by decide)).2.2 (by decide)⟩

end SolanaListenerPoll

namespace SolanaListenerPoll

/-- The unit a `pairCreatedAt` timestamp is interpreted in. -/
inductive TimeUnit where
  | seconds
  | milliseconds
deriving DecidableEq

/-- One pair from the DexScreener pair endpoint: its `pairCreatedAt`
timestamp (0 standing for a missing/falsy value). -/
structure DexPair where
  pairCreatedAt : Nat
deriving DecidableEq

/-- Number of decimal digits, as `pairCreatedAt.toString().length`. -/
def numDigits (n : Nat) : Nat := (Nat.repr n).length

/-- `fetchTokenCreationTime` (part_007, lines 78-113): `none` models a
non-200 response, a thrown error, an absent or empty `pairs` array or a
falsy `pairCreatedAt`; a 10-digit timestamp is seconds, a 13-digit one is
milliseconds, and any other length yields `none`. -/
def fetchTokenCreationTime (resp : Option (List DexPair)) : Option (Nat × TimeUnit) :=
  match resp with
  | none => none
  | some pairs =>
    match pairs with
    | [] => none
    | pair :: _ =>
      if pair.pairCreatedAt = 0 then none
      else if numDigits pair.pairCreatedAt = 10 then some (pair.pairCreatedAt, .seconds)
      else if numDigits pair.pairCreatedAt = 13 then some (pair.pairCreatedAt, .milliseconds)
      else none

/-- The seconds conversion of `isTokenYoungerThan30Mins` (lines 123-129):
milliseconds are floor-divided by 1000. -/
def creationTimeInSeconds : Nat × TimeUnit → Nat
  | (ts, .seconds) => ts
  | (ts, .milliseconds) => ts / 1000

/-- `isTokenYoungerThan30Mins` (lines 119-138, pure form as in part_008
lines 106-121): unknown creation data fails; otherwise the age
`now - creation` must lie in `[0, 1800]` seconds. -/
def isTokenYoungerThan30Mins (now : Nat) (creationData : Option (Nat × TimeUnit)) : Bool :=
  match creationData with
  | none => false
  | some cd =>
    decide (0 ≤ (now : Int) - creationTimeInSeconds cd ∧
      (now : Int) - creationTimeInSeconds cd ≤ 1800)

/-- The guard chain a candidate must clear in `pollDexScreener`
(lines 205-223) before the alert/purchase block runs for a user: valid
mint, Solana chain, the freshness gate, and the user's filters. -/
def candidateGate (validMint chainSolana : Bool) (now : Nat)
    (resp : Option (List DexPair)) (passesFilters : Bool) : Bool :=
  validMint && chainSolana &&
    isTokenYoungerThan30Mins now (fetchTokenCreationTime resp) && passesFilters

/-- C10: a candidate is alerted/purchased only when its first pair's
creation timestamp is known, has exactly 10 digits (seconds) or exactly 13
digits (milliseconds), and the age `now - creation` lies in `[0, 1800]`
seconds; a missing response, an empty pair list, a falsy timestamp, or any
other digit length makes the freshness probe return `none` and the
candidate is skipped. -/
theorem freshness_gate (validMint chainSolana passesFilters : Bool) (now : Nat)
    (resp : Option (List DexPair)) :
    (candidateGate validMint chainSolana now resp passesFilters = true →
      ∃ ts unit, fetchTokenCreationTime resp = some (ts, unit) ∧
        (numDigits ts = 10 ∧ unit = .seconds ∨ numDigits ts = 13 ∧ unit = .milliseconds) ∧
        0 ≤ (now : Int) - creationTimeInSeconds (ts, unit) ∧
        (now : Int) - creationTimeInSeconds (ts, unit) ≤ 1800) ∧
    (fetchTokenCreationTime resp = none →
      candidateGate validMint chainSolana now resp passesFilters = false) ∧
    (∀ ts rest, numDigits ts ≠ 10 → numDigits ts ≠ 13 →
      fetchTokenCreationTime (some (⟨ts⟩ :: rest)) = none) ∧
    (∀ rest, fetchTokenCreationTime (some (⟨0⟩ :: rest)) = none) ∧
    fetchTokenCreationTime none = none ∧ fetchTokenCreationTime (some []) = none := by
  refine ⟨?_, ?_, ?_, ?_, rfl, rfl⟩
  · intro hgate
    simp only [candidateGate, Bool.and_eq_true] at hgate
    have hyoung := hgate.1.2
    cases hcd : fetchTokenCreationTime resp with
    | none => rw [hcd] at hyoung; exact absurd hyoung (by simp [isTokenYoungerThan30Mins])
    | some cd =>
      obtain ⟨ts, unit⟩ := cd
      rw [hcd] at hyoung
      have hage : 0 ≤ (now : Int) - creationTimeInSeconds (ts, unit) ∧
          (now : Int) - creationTimeInSeconds (ts, unit) ≤ 1800 := by
        simpa [isTokenYoungerThan30Mins] using hyoung
      refine ⟨ts, unit, rfl, ?_, hage.1, hage.2⟩
      cases resp with
      | none => simp [fetchTokenCreationTime] at hcd
      | some pairs =>
        cases pairs with
        | nil => simp [fetchTokenCreationTime] at hcd
        | cons pair rest =>
          simp only [fetchTokenCreationTime] at hcd
          by_cases h0 : pair.pairCreatedAt = 0
          · simp [h0] at hcd
          · by_cases h10 : numDigits pair.pairCreatedAt = 10
            · rw [if_neg h0, if_pos h10] at hcd
              cases hcd
              exact Or.inl ⟨h10, rfl⟩
            · by_cases h13 : numDigits pair.pairCreatedAt = 13
              · rw [if_neg h0, if_neg h10, if_pos h13] at hcd
                cases hcd
                exact Or.inr ⟨h13, rfl⟩
              · rw [if_neg h0, if_neg h10, if_neg h13] at hcd
                cases hcd
  · intro hnone
    simp [candidateGate, hnone, isTokenYoungerThan30Mins]
  · intro ts rest h10 h13
    by_cases h0 : ts = 0
    · simp [fetchTokenCreationTime, h0]
    · simp [fetchTokenCreationTime, h0, h10, h13]
  · intro rest
    simp [fetchTokenCreationTime]

/-- C10 witness: a token created 900 seconds before `now` with a 10-digit
timestamp clears the gate, and the gate implies the freshness bound. -/
theorem freshness_gate_witness :
    candidateGate true true 1700000900 (some [⟨1700000000⟩]) true = true ∧
    ∃ ts unit, fetchTokenCreationTime (some [⟨1700000000⟩]) = some (ts, unit) ∧
      (numDigits ts = 10 ∧ unit = .seconds ∨ numDigits ts = 13 ∧ unit = .milliseconds) ∧
      0 ≤ (1700000900 : Int) - creationTimeInSeconds (ts, unit) ∧
      (1700000900 : Int) - creationTimeInSeconds (ts, unit) ≤ 1800 :=
  ⟨by decide,
    (freshness_gate true true true 1700000900 (some [⟨1700000000⟩])).1 (by decide)⟩

end SolanaListenerPoll
